import Mathlib

/-!
# SimDisplayCLI: a shallow embedding of `SimDisplayCLI.c`

The development follows the C source function by function:

* `lookupBBOffset` : the brake-bias calibration table and its linear search;
* `doSend`         : the 25 Hz loop that builds a `SimDisplayPacket` per tick and writes it
                     to the serial port;
* `doCsv`          : the values handed to `snprintf` for one CSV record;
* `doSave`, `doReplay` : the binary log writer and the replayer;
* `mapAcpmf`       : opening / creating the three shared-memory views.

Conventions of the embedding.

* C `int` values are `Int`; narrowing to an unsigned field of `w` bits is `% 2 ^ w`.
* C `float` values are `F32`: a sign, a significand and a binary exponent, or an infinity, or
  NaN.  Multiplication and addition round to nearest, ties to even, as IEEE 754 binary32 does.
* A wide string (`wchar_t *`) is the list of its code units; it ends at the first `0` unit or at
  the end of the list.
* One firing of the waitable timer is one element of the list of ticks that a loop is run on;
  what the loop reads from shared memory on that tick is the element itself.  Reads of the
  shared views are taken to be consistent within one tick.
* Creating, arming and waiting on the timer are taken to succeed, so the `return 1` branches
  that follow a failed timer call do not appear; the diagnostics printed with `fprintf` are
  not recorded.
-/

namespace SimDisplayCLI

/-! ## C `float` (IEEE 754 binary32) -/

/-- A binary32 value: `fin neg m e` denotes `(-1)^neg * m * 2^e`. -/
inductive F32 where
  | fin (neg : Bool) (m : Nat) (e : Int)
  | inf (neg : Bool)
  | nan
  deriving DecidableEq, Repr

namespace F32

/-- Number of binary digits of `m`, by at most `fuel` halvings. -/
def bitLength : Nat → Nat → Nat
  | 0, _ => 0
  | fuel + 1, m => if m = 0 then 0 else bitLength fuel (m / 2) + 1

/-- Round the exact value `(-1)^neg * m * 2^e` to binary32: 24 bits of significand, least
exponent `-149`, round to nearest with ties to even, overflow to infinity. -/
def round (neg : Bool) (m : Nat) (e : Int) : F32 :=
  if m = 0 then .fin neg 0 0
  else
    let n : Int := (bitLength m m : Int)
    let E : Int := max (e + n - 24) (-149)
    let q : Nat :=
      if E ≤ e then m * 2 ^ (e - E).toNat
      else
        let shift := (E - e).toNat
        let q0 := m / 2 ^ shift
        let r := m % 2 ^ shift
        let half := 2 ^ (shift - 1)
        if half < r ∨ (r = half ∧ q0 % 2 = 1) then q0 + 1 else q0
    if 104 < E ∨ (E = 104 ∧ 2 ^ 24 ≤ q) then .inf neg
    else if q = 2 ^ 24 then .fin neg (2 ^ 23) (E + 1)
    else if q = 0 then .fin neg 0 0
    else .fin neg q E

/-- A float literal with an integral value, such as `-70.0f` or `1000.0f`. -/
def ofInt (i : Int) : F32 := round (decide (i < 0)) i.natAbs 0

/-- The literal `0.5f`. -/
def half : F32 := round false 1 (-1)

/-- C truth value of a float used as a condition: everything except `+0` and `-0` is true. -/
def toBool : F32 → Bool
  | .fin _ m _ => decide (m ≠ 0)
  | _ => true

/-- Binary32 multiplication. -/
def mul : F32 → F32 → F32
  | .fin a m e, .fin b n f => round (xor a b) (m * n) (e + f)
  | .fin a m _, .inf b => if m = 0 then .nan else .inf (xor a b)
  | .inf a, .fin b n _ => if n = 0 then .nan else .inf (xor a b)
  | .inf a, .inf b => .inf (xor a b)
  | _, _ => .nan

/-- The signed integer `(-1)^neg * m`. -/
def signed (neg : Bool) (m : Nat) : Int := if neg then -(m : Int) else (m : Int)

/-- Binary32 addition. -/
def add : F32 → F32 → F32
  | .fin a m e, .fin b n f =>
    let g := min e f
    let s : Int := signed a (m * 2 ^ (e - g).toNat) + signed b (n * 2 ^ (f - g).toNat)
    if s = 0 then .fin (a && b) 0 0 else round (decide (s < 0)) s.natAbs g
  | .fin _ _ _, .inf b => .inf b
  | .inf a, .fin _ _ _ => .inf a
  | .inf a, .inf b => if a = b then .inf a else .nan
  | _, _ => .nan

/-- The integer a finite value truncates to (rounding toward zero). -/
def trunc (neg : Bool) (m : Nat) (e : Int) : Int :=
  signed neg (if 0 ≤ e then m * 2 ^ e.toNat else m / 2 ^ (-e).toNat)

/-- The number a binary32 value denotes; infinities and NaN denote none. -/
def val : F32 → Option ℚ
  | .fin neg m e => some ((if neg then -1 else 1) * (m : ℚ) * (2 : ℚ) ^ e)
  | _ => none

/-- The cast `(uintW_t)x` of a float, for `w ≤ 32`.  ISO C defines it only when the truncated
value fits the target type.  Outside that range the model follows the x86 conversion the
Windows compilers emit (truncate to a 32-bit integer, `0x80000000` when that is impossible,
then keep the low `w` bits), which is also the "truncation, not saturation" the specification
asks for. -/
def toUInt (w : Nat) : F32 → Int
  | .fin neg m e =>
    let t := trunc neg m e
    if -(2 ^ 31 : Int) ≤ t ∧ t < 2 ^ 31 then t % 2 ^ w else (-(2 ^ 31 : Int)) % 2 ^ w
  | _ => (-(2 ^ 31 : Int)) % 2 ^ w

end F32

/-! ## Wide strings -/

/-- The code units of a wide string literal such as `L"audi_r8_lms"`. -/
def wstr (s : String) : List Nat := s.toList.map Char.toNat

/-- The characters of a wide string buffer: everything before the terminating `0` unit. -/
def wchars (s : List Nat) : List Nat := s.takeWhile (fun c => c != 0)

/-- The C library's `wcscmp`: `0` when both strings hold the same characters up to their
terminators, otherwise the sign of the first difference. -/
def wcscmp : List Nat → List Nat → Int
  | [], [] => 0
  | [], b :: _ => if b = 0 then 0 else -1
  | a :: _, [] => if a = 0 then 0 else 1
  | a :: s, b :: t =>
    if a < b then -1
    else if b < a then 1
    else if a = 0 then 0
    else wcscmp s t

/-! ## `lookupBBOffset` -/

/-- One element of the `dict` table of `lookupBBOffset`. -/
structure DictElem where
  bbOffset : F32
  carModel : List Nat
  deriving DecidableEq, Repr

/-- The table `dict` of `lookupBBOffset`, in source order. -/
def dict : List DictElem :=
  [ ⟨F32.ofInt (-70), wstr "amr_v12_vantage_gt3"⟩,
    ⟨F32.ofInt (-70), wstr "amr_v8_vantage_gt3"⟩,
    ⟨F32.ofInt (-140), wstr "audi_r8_lms"⟩,
    ⟨F32.ofInt (-140), wstr "audi_r8_lms_evo"⟩,
    ⟨F32.ofInt (-70), wstr "bentley_continental_gt3_2016"⟩,
    ⟨F32.ofInt (-70), wstr "bentley_continental_gt3_2018"⟩,
    ⟨F32.ofInt (-150), wstr "bmw_m6_gt3"⟩,
    ⟨F32.ofInt (-70), wstr "jaguar_g3"⟩,
    ⟨F32.ofInt (-170), wstr "ferrari_488_gt3"⟩,
    ⟨F32.ofInt (-140), wstr "honda_nsx_gt3"⟩,
    ⟨F32.ofInt (-140), wstr "honda_nsx_gt3_evo"⟩,
    ⟨F32.ofInt (-140), wstr "lamborghini_gallardo_rex"⟩,
    ⟨F32.ofInt (-150), wstr "lamborghini_huracan_gt3"⟩,
    ⟨F32.ofInt (-140), wstr "lamborghini_huracan_gt3_evo"⟩,
    ⟨F32.ofInt (-140), wstr "lamborghini_huracan_st"⟩,
    ⟨F32.ofInt (-140), wstr "lexus_rc_f_gt3"⟩,
    ⟨F32.ofInt (-170), wstr "mclaren_650s_gt3"⟩,
    ⟨F32.ofInt (-170), wstr "mclaren_720s_gt3"⟩,
    ⟨F32.ofInt (-150), wstr "mercedes_amg_gt3"⟩,
    ⟨F32.ofInt (-150), wstr "nissan_gt_r_gt3_2017"⟩,
    ⟨F32.ofInt (-150), wstr "nissan_gt_r_gt3_2018"⟩,
    ⟨F32.ofInt (-60), wstr "porsche_991_gt3_r"⟩,
    ⟨F32.ofInt (-150), wstr "porsche_991ii_gt3_cup"⟩,
    ⟨F32.ofInt (-210), wstr "porsche_991ii_gt3_r"⟩ ]

/-- The `for` loop of `lookupBBOffset` over the remaining table elements: the offset of the
first element whose key compares equal, and `0.0` when the elements run out. -/
def lookupLoop : List DictElem → List Nat → F32
  | [], _ => F32.ofInt 0
  | d :: rest, carModel =>
    if wcscmp d.carModel carModel = 0 then d.bbOffset else lookupLoop rest carModel

/-- The C function `lookupBBOffset`. -/
def lookupBBOffset (carModel : List Nat) : F32 := lookupLoop dict carModel

/-! ## The shared-memory records and the wire packet

`ACCSharedMemory.h` and `SimDisplayProtocol.h` are included by the source but are not part of
it.  The records below hold the fields that `SimDisplayCLI.c` reads and writes. -/

/-- Modelled from the spec: the session-status enumerator `ACC_OFF` of `ACCSharedMemory.h`.
The specification lists the enumeration as OFF, REPLAY, LIVE, PAUSE; a C enumeration numbers
its enumerators from 0 in that order. -/
def ACC_OFF : Int := 0

/-- Modelled from the spec: the enumerator `ACC_REPLAY` of `ACCSharedMemory.h`. -/
def ACC_REPLAY : Int := 1

/-- Modelled from the spec: the enumerator `ACC_LIVE` of `ACCSharedMemory.h`. -/
def ACC_LIVE : Int := 2

/-- Modelled from the spec: the enumerator `ACC_PAUSE` of `ACCSharedMemory.h`. -/
def ACC_PAUSE : Int := 3

/-- Modelled from the spec: the fields of `struct ACCPhysics` (`ACCSharedMemory.h`) that the
source uses; the specification gives their kinds (integers, and floating values for the
live-action levels, the brake bias and the temperatures). -/
structure ACCPhysics where
  rpms : Int
  pitLimiterOn : Int
  gear : Int
  tc : F32
  abs : F32
  brakeBias : F32
  airTemp : F32
  roadTemp : F32
  deriving DecidableEq, Repr

/-- Modelled from the spec: the fields of `struct ACCGraphics` that the source uses. -/
structure ACCGraphics where
  status : Int
  TC : Int
  TCCut : Int
  ABS : Int
  fuelEstimatedLaps : F32
  EngineMap : Int
  deriving DecidableEq, Repr

/-- Modelled from the spec: the fields of `struct ACCStatic` that the source uses. -/
structure ACCStatic where
  maxRpm : Int
  carModel : List Nat
  deriving DecidableEq, Repr

/-- What one tick reads through the three views. -/
structure Snapshot where
  phy : ACCPhysics
  gra : ACCGraphics
  sta : ACCStatic
  deriving DecidableEq, Repr

/-- Modelled from the spec: `struct SimDisplayPacket` of `SimDisplayProtocol.h`, with the field
names the source assigns.  Section 6 of the specification fixes `bb` as unsigned 16-bit, the
fields `pitlimiter`, `gear`, `tc`, `tcc`, `tcaction`, `abs`, `absaction`, `remlaps`, `airt`,
`roadt` as bytes, and `status` and `map` as `int`; `rpm` and `maxrpm` are unsigned integers
whose width the header fixes. -/
structure SimDisplayPacket where
  status : Int
  rpm : Int
  maxrpm : Int
  pitlimiter : Int
  gear : Int
  tc : Int
  tcc : Int
  tcaction : Int
  abs : Int
  absaction : Int
  bb : Int
  remlaps : Int
  map : Int
  airt : Int
  roadt : Int
  deriving DecidableEq, Repr

/-- Narrowing of an `int` to an unsigned field of `w` bits. -/
def narrow (w : Nat) (x : Int) : Int := x % 2 ^ w

/-- A value of C type `int` after 32-bit two-s-complement wrap-around. -/
def wrapInt (x : Int) : Int := (x + 2 ^ 31) % 2 ^ 32 - 2 ^ 31

/-! ## `doSend` -/

/-- The expression assigned to `packet.bb` in `doSend`:
`phy->brakeBias ? (uint16_t)(phy->brakeBias * 1000.0f + bbOffset) : 0`
(the source line ends with one closing parenthesis too many; it is read as this conditional
expression). -/
def sendBB (brakeBias bbOffset : F32) : Int :=
  if brakeBias.toBool then
    F32.toUInt 16 (F32.add (F32.mul brakeBias (F32.ofInt 1000)) bbOffset)
  else 0

/-- The assignments to `packet` in the body of the loop of `doSend`, for the offset `bbOffset`
in force.  `rpmBits` is the width of the `rpm` and `maxrpm` fields. -/
def buildPacket (rpmBits : Nat) (t : Snapshot) (bbOffset : F32) : SimDisplayPacket where
  status := t.gra.status
  rpm := narrow rpmBits t.phy.rpms
  maxrpm := narrow rpmBits t.sta.maxRpm
  pitlimiter := narrow 8 t.phy.pitLimiterOn
  gear := narrow 8 t.phy.gear
  tc := narrow 8 t.gra.TC
  tcc := narrow 8 t.gra.TCCut
  tcaction := F32.toUInt 8 t.phy.tc
  abs := narrow 8 t.gra.ABS
  absaction := F32.toUInt 8 t.phy.abs
  bb := sendBB t.phy.brakeBias bbOffset
  remlaps := F32.toUInt 8 t.gra.fuelEstimatedLaps
  map := wrapInt (t.gra.EngineMap + 1)
  airt := F32.toUInt 8 (F32.add t.phy.airTemp F32.half)
  roadt := F32.toUInt 8 (F32.add t.phy.roadTemp F32.half)

/-- The variables that live across iterations of the loop of `doSend`, and the packets handed
to `WriteFile` on the serial port so far, oldest first. -/
structure SendState where
  bbOffset : F32
  prevStatus : Int
  written : List SimDisplayPacket
  deriving DecidableEq, Repr

/-- The state on entry to the loop: `bbOffset = 0.0f`, `prevStatus = ACC_OFF`, nothing
written. -/
def sendInit : SendState := ⟨F32.ofInt 0, ACC_OFF, []⟩

/-- The test of the `continue` statement:
`ACC_LIVE != gra->status && prevStatus == gra->status`. -/
def sendSkips (prevStatus status : Int) : Bool :=
  decide (ACC_LIVE ≠ status) && decide (prevStatus = status)

/-- The test that guards the call of `lookupBBOffset`:
`gra->status != prevStatus && ACC_LIVE == gra->status`. -/
def sendRecalibrates (prevStatus status : Int) : Bool :=
  decide (status ≠ prevStatus) && decide (ACC_LIVE = status)

/-- One iteration of the loop of `doSend` (one firing of `sendTimer`). -/
def sendTick (rpmBits : Nat) (s : SendState) (t : Snapshot) : SendState :=
  if sendSkips s.prevStatus t.gra.status then s
  else
    let bbOffset :=
      if sendRecalibrates s.prevStatus t.gra.status then lookupBBOffset t.sta.carModel
      else s.bbOffset
    { bbOffset := bbOffset
      prevStatus := t.gra.status
      written := s.written ++ [buildPacket rpmBits t bbOffset] }

/-- The loop of `doSend` run over the given ticks, from the state `s`. -/
def sendLoop (rpmBits : Nat) (s : SendState) (ticks : List Snapshot) : SendState :=
  ticks.foldl (sendTick rpmBits) s

/-- The loop of `doSend` from its initial state. -/
def doSend (rpmBits : Nat) (ticks : List Snapshot) : SendState :=
  sendLoop rpmBits sendInit ticks

/-! ## `doCsv` -/

/-- The arguments that `doCsv` passes to `snprintf` after the format string, one per column
of the header line, in order. -/
structure CsvRecord where
  status : Int
  rpm : Int
  maxrpm : Int
  pitlimiteron : Int
  gear : Int
  tc : Int
  tccut : Int
  tcaction : F32
  itcaction : Int
  abs : Int
  absaction : F32
  iabsaction : Int
  bb : F32
  ibb : Int
  fuellaps : F32
  map : Int
  airt : F32
  roadt : F32
  deriving DecidableEq, Repr

/-- The body of the loop of `doCsv` for one complete record read from `accdump.bin`. -/
def csvRecord (t : Snapshot) : CsvRecord where
  status := t.gra.status
  rpm := t.phy.rpms
  maxrpm := t.sta.maxRpm
  pitlimiteron := t.phy.pitLimiterOn
  gear := t.phy.gear
  tc := t.gra.TC
  tccut := t.gra.TCCut
  tcaction := t.phy.tc
  itcaction := F32.toUInt 8 t.phy.tc
  abs := t.gra.ABS
  absaction := t.phy.abs
  iabsaction := F32.toUInt 8 t.phy.abs
  bb := t.phy.brakeBias
  ibb := F32.toUInt 16
    (F32.add (F32.mul t.phy.brakeBias (F32.ofInt 1000)) (lookupBBOffset t.sta.carModel))
  fuellaps := t.gra.fuelEstimatedLaps
  map := t.gra.EngineMap
  airt := t.phy.airTemp
  roadt := t.phy.roadTemp

/-- The records `doCsv` writes after the header line, one per complete record of the log. -/
def doCsv (records : List Snapshot) : List CsvRecord := records.map csvRecord

/-! ## `doSave` and `doReplay`

Here the three views are raw bytes.  `Sizes` stands for `sizeof(struct ACCPhysics)`,
`sizeof(struct ACCGraphics)` and `sizeof(struct ACCStatic)`, which `ACCSharedMemory.h` fixes. -/

/-- The three `sizeof` values. -/
structure Sizes where
  phy : Nat
  gra : Nat
  sta : Nat
  deriving DecidableEq, Repr

/-- The bytes behind the three mapped views. -/
structure Views where
  phy : List Nat
  gra : List Nat
  sta : List Nat
  deriving DecidableEq, Repr

/-- A view set whose three parts have exactly the record sizes. -/
def Views.sized (sz : Sizes) (v : Views) : Prop :=
  v.phy.length = sz.phy ∧ v.gra.length = sz.gra ∧ v.sta.length = sz.sta

instance (sz : Sizes) (v : Views) : Decidable (v.sized sz) := by
  unfold Views.sized; infer_instance

/-- The Win32 call `WriteFile(file, buf, n, ..)` on a disk file: the first `n` bytes of the
buffer are appended. -/
def WriteFile (file buf : List Nat) (n : Nat) : List Nat := file ++ buf.take n

/-- One iteration of the loop of `doSave`: the three views are written in the order Physics,
Graphics, Static. -/
def saveTick (sz : Sizes) (file : List Nat) (v : Views) : List Nat :=
  WriteFile (WriteFile (WriteFile file v.phy sz.phy) v.gra sz.gra) v.sta sz.sta

/-- The loop of `doSave` run over the given ticks; `accdump.bin` starts empty
(`CREATE_ALWAYS`). -/
def doSave (sz : Sizes) (ticks : List Views) : List Nat := ticks.foldl (saveTick sz) []

/-- An input of `doReplay`: the bytes not read yet, and, when the handle is going to report
an error, how many further `ReadFile` calls succeed before it does. -/
structure Handle where
  data : List Nat
  failAfter : Option Nat
  deriving DecidableEq, Repr

/-- The Win32 call `ReadFile(h, buf, n, &bytesRead, NULL)`.  `none` is a failed call.
Otherwise up to `n` bytes are taken from the input and stored at the start of the buffer; the
result is the handle afterwards, the buffer afterwards and `bytesRead`. -/
def ReadFile (h : Handle) (buf : List Nat) (n : Nat) : Option (Handle × List Nat × Nat) :=
  match h.failAfter with
  | some 0 => none
  | fa =>
    let got := h.data.take n
    some (⟨h.data.drop n, fa.map fun k => k - 1⟩, got ++ buf.drop got.length, got.length)

/-- What one completed iteration of the `do ... while` loop of `doReplay` did: the three byte
counts and the views after the three reads. -/
structure ReplayTick where
  phyBytesRead : Nat
  graBytesRead : Nat
  staBytesRead : Nat
  views : Views
  deriving DecidableEq, Repr

/-- The three `ReadFile` calls of one iteration, joined by `||` in the source, so a failed
call ends the sequence.  `none` is the `return 1` branch. -/
def replayReads (sz : Sizes) (h : Handle) (v : Views) : Option (Handle × ReplayTick) :=
  match ReadFile h v.phy sz.phy with
  | none => none
  | some (h1, phy, p) =>
    match ReadFile h1 v.gra sz.gra with
    | none => none
    | some (h2, gra, g) =>
      match ReadFile h2 v.sta sz.sta with
      | none => none
      | some (h3, sta, s) => some (h3, ⟨p, g, s, ⟨phy, gra, sta⟩⟩)

/-- The loop condition `phyBytesRead || graBytesRead || staBytesRead`. -/
def ReplayTick.again (t : ReplayTick) : Bool :=
  t.phyBytesRead != 0 || t.graBytesRead != 0 || t.staBytesRead != 0

/-- A tick on which one of the three reads returned a zero or short byte count. -/
def ReplayTick.short (sz : Sizes) (t : ReplayTick) : Bool :=
  decide (t.phyBytesRead = 0 ∨ t.phyBytesRead < sz.phy) ||
  decide (t.graBytesRead = 0 ∨ t.graBytesRead < sz.gra) ||
  decide (t.staBytesRead = 0 ∨ t.staBytesRead < sz.sta)

/-- How the loop over one input ends. -/
structure ReplayRun where
  /-- the value `return 1` was taken (a failed `ReadFile`) -/
  failed : Bool
  /-- the completed iterations, oldest first -/
  ticks : List ReplayTick
  /-- the input afterwards -/
  handle : Handle
  /-- the views afterwards -/
  views : Views
  deriving DecidableEq, Repr

/-- The `do ... while` loop of `doReplay` on one input, starting with the iterations `acc`
already done.  Every iteration that reads at least one byte shortens the input, so the loop
always ends. -/
def replayLoop (sz : Sizes) (h : Handle) (v : Views) (acc : List ReplayTick) : ReplayRun :=
  match hr : replayReads sz h v with
  | none => ⟨true, acc, h, v⟩
  | some (h3, t) =>
    if ha : t.again = true then replayLoop sz h3 t.views (acc ++ [t])
    else ⟨false, acc ++ [t], h3, t.views⟩
termination_by h.data.length
decreasing_by
  have key : ∀ (a b : Handle) (buf out : List Nat) (n k : Nat),
      ReadFile a buf n = some (b, out, k) → b.data.length + k = a.data.length := by
    intro a b buf out n k e
    unfold ReadFile at e
    split at e
    · cases e
    · simp only [Option.some.injEq, Prod.mk.injEq] at e
      obtain ⟨rfl, -, rfl⟩ := e
      simp only [List.length_drop, List.length_take]
      omega
  unfold replayReads at hr
  split at hr
  · cases hr
  · rename_i h1 phy p e1
    split at hr
    · cases hr
    · rename_i h2 gra g e2
      split at hr
      · cases hr
      · rename_i h4 sta q e3
        simp only [Option.some.injEq, Prod.mk.injEq] at hr
        obtain ⟨rfl, rfl⟩ := hr
        have a1 := key _ _ _ _ _ _ e1
        have a2 := key _ _ _ _ _ _ e2
        have a3 := key _ _ _ _ _ _ e3
        simp only [ReplayTick.again, bne_iff_ne, ne_eq, Bool.or_eq_true] at ha
        omega

/-- The outer `for` loop of `doReplay` over its inputs: each input is replayed into the same
views; a failed read ends the whole command.  The result is the run of each input reached and
whether the command returned 0. -/
def doReplay (sz : Sizes) : List Handle → Views → List ReplayRun × Bool
  | [], _ => ([], true)
  | h :: rest, v =>
    let run := replayLoop sz h v []
    if run.failed then ([run], false)
    else
      let (runs, ok) := doReplay sz rest run.views
      (run :: runs, ok)

/-! ## `mapAcpmf` -/

/-- The C enumeration `mapAcpmf_action`. -/
inductive mapAcpmf_action where
  | MAPACPMF_CREATE
  | MAPACPMF_OPEN_EXISTING
  deriving DecidableEq, Repr

/-- What the operating system answers to the calls `mapAcpmf` makes.  Handles and addresses
are numbers and `0` is `NULL`. -/
structure Win32 where
  /-- the handle the call number `k` (from 0) of `OpenFileMapping(.., acpmf_physics)` returns -/
  openPhysics : Nat → Nat
  /-- the handle `OpenFileMapping(.., acpmf_graphics)` returns -/
  openGraphics : Nat
  /-- the handle `OpenFileMapping(.., acpmf_static)` returns -/
  openStatic : Nat
  /-- the handle `CreateFileMapping(.., acpmf_physics)` returns -/
  createPhysics : Nat
  /-- the handle `CreateFileMapping(.., acpmf_graphics)` returns -/
  createGraphics : Nat
  /-- the handle `CreateFileMapping(.., acpmf_static)` returns -/
  createStatic : Nat
  /-- the address `MapViewOfFile` returns for a mapping handle -/
  mapViewOfFile : Nat → Nat

/-- What a call of `mapAcpmf` that returns leaves behind: the returned `err`, and the values
stored through the three pointer arguments (`none` when nothing was stored). -/
structure Mapped where
  err : Int
  phy : Option Nat
  gra : Option Nat
  sta : Option Nat
  deriving DecidableEq, Repr

/-- The end of a call of `mapAcpmf`: it returns, or it stores through a null pointer
argument. -/
inductive MapOutcome where
  | returned (m : Mapped)
  | fault
  deriving DecidableEq, Repr

/-- The loop `while (!(phyMap = OpenFileMapping(..))) { ..; Sleep(1000); }`, starting with
call number `k`: the first handle that is not `NULL`, or `none` when `fuel` calls have all
returned `NULL`. -/
def waitPhysics (w : Win32) : Nat → Nat → Option Nat
  | 0, _ => none
  | fuel + 1, k =>
    if w.openPhysics k ≠ 0 then some (w.openPhysics k) else waitPhysics w fuel (k + 1)

/-- The part of `mapAcpmf` after the three mapping handles are known.  `phy`, `gra`, `sta` are
the pointer arguments (the addresses of the variables of the caller). -/
def mapViews (w : Win32) (phyMap graMap staMap : Nat) (phy gra sta : Nat) : MapOutcome :=
  let err : Int := 0
  let err := if phyMap = 0 then 1 else err
  let err := if graMap = 0 then 1 else err
  let err := if staMap = 0 then 1 else err
  if err ≠ 0 then .returned ⟨err, none, none, none⟩
  else if phy = 0 then .fault
  else
    let phyView := w.mapViewOfFile phyMap
    let err := if phy = 0 then 1 else err
    if gra = 0 then .fault
    else
      let graView := w.mapViewOfFile graMap
      let err := if gra = 0 then 1 else err
      if sta = 0 then .fault
      else
        let staView := w.mapViewOfFile staMap
        let err := if sta = 0 then 1 else err
        .returned ⟨err, some phyView, some graView, some staView⟩

/-- The C function `mapAcpmf`.  `none` means that the wait for the Physics mapping is still
going on after `fuel` calls of `OpenFileMapping`. -/
def mapAcpmf (w : Win32) (fuel : Nat) (action : mapAcpmf_action) (phy gra sta : Nat) :
    Option MapOutcome :=
  match action with
  | .MAPACPMF_OPEN_EXISTING =>
    match waitPhysics w fuel 0 with
    | none => none
    | some phyMap => some (mapViews w phyMap w.openGraphics w.openStatic phy gra sta)
  | .MAPACPMF_CREATE =>
    some (mapViews w w.createPhysics w.createGraphics w.createStatic phy gra sta)

/-! ## Statements used by the theorems -/

/-- The byte log of a list of snapshots: the Physics, Graphics and Static bytes of each, in
turn. -/
def logOf (snaps : List Views) : List Nat :=
  snaps.flatMap fun s => s.phy ++ s.gra ++ s.sta

/-- The outcome the amended contract of `mapAcpmf` allows once the three mapping handles are
known: return value 1 and nothing stored when a handle is `NULL`; otherwise the three
`MapViewOfFile` results are stored, and the return value is 0 when none of them is `NULL`. -/
def MapContract (w : Win32) (phyMap graMap staMap : Nat) (o : MapOutcome) : Prop :=
  if phyMap = 0 ∨ graMap = 0 ∨ staMap = 0 then o = .returned ⟨1, none, none, none⟩
  else ∃ err, o = .returned ⟨err, some (w.mapViewOfFile phyMap), some (w.mapViewOfFile graMap),
      some (w.mapViewOfFile staMap)⟩ ∧
    (w.mapViewOfFile phyMap ≠ 0 ∧ w.mapViewOfFile graMap ≠ 0 ∧ w.mapViewOfFile staMap ≠ 0 →
      err = 0)

/-! ## Concrete inputs used in the closed statements -/

/-- A snapshot with the given status in which every other field is zero and the vehicle name
is empty. -/
def idleTick (status : Int) : Snapshot :=
  ⟨⟨0, 0, 0, F32.ofInt 0, F32.ofInt 0, F32.ofInt 0, F32.ofInt 0, F32.ofInt 0⟩,
   ⟨status, 0, 0, 0, F32.ofInt 0, 0⟩, ⟨0, []⟩⟩

/-- A snapshot with the given status, vehicle name and brake bias, every other field zero. -/
def carTick (status : Int) (carModel : String) (brakeBias : F32) : Snapshot :=
  ⟨⟨0, 0, 0, F32.ofInt 0, F32.ofInt 0, brakeBias, F32.ofInt 0, F32.ofInt 0⟩,
   ⟨status, 0, 0, 0, F32.ofInt 0, 0⟩, ⟨0, wstr carModel⟩⟩

/-- Record sizes of two bytes each, for the byte-level examples. -/
def twoBytes : Sizes := ⟨2, 2, 2⟩

/-- Views of two zero bytes each: a freshly created region for the sizes `twoBytes`. -/
def freshViews : Views := ⟨[0, 0], [0, 0], [0, 0]⟩

/-- An operating system in which the Physics mapping never opens. -/
def neverPhysics : Win32 := ⟨fun _ => 0, 11, 12, 20, 21, 22, fun h => 1000 + h⟩

/-- An operating system in which every mapping is obtained at once and `MapViewOfFile` returns
`NULL` for the created Physics mapping. -/
def nullPhysicsView : Win32 :=
  ⟨fun _ => 10, 11, 12, 20, 21, 22, fun h => if h = 20 then 0 else 1000 + h⟩

/-- An operating system in which the Physics mapping opens at the third call and every view
is mapped. -/
def latePhysics : Win32 :=
  ⟨fun k => if k < 2 then 0 else 10, 11, 12, 20, 21, 22, fun h => 1000 + h⟩

/-! ## Facts about `wcscmp` and the table search -/

theorem wcscmp_eq_zero_iff (a b : List Nat) : wcscmp a b = 0 ↔ wchars a = wchars b := by
  induction a generalizing b with
  | nil =>
    cases b with
    | nil => simp [wcscmp, wchars]
    | cons y t =>
      by_cases hy : y = 0
      · simp [wcscmp, wchars, hy]
      · simp [wcscmp, wchars, hy]
  | cons x s ih =>
    cases b with
    | nil =>
      by_cases hx : x = 0
      · simp [wcscmp, wchars, hx]
      · simp [wcscmp, wchars, hx]
    | cons y t =>
      unfold wcscmp
      by_cases h1 : x < y
      · have hy : y ≠ 0 := by omega
        have hxy : x ≠ y := by omega
        by_cases hx : x = 0
        · simp [h1, wchars, hx, hy]
        · simp [h1, wchars, hx, hy, hxy]
      · by_cases h2 : y < x
        · have hx : x ≠ 0 := by omega
          have hxy : x ≠ y := by omega
          by_cases hy : y = 0
          · have hpos : 0 < x := by omega
            simp [wchars, hx, hy, hpos]
          · simp [h1, h2, wchars, hx, hy, hxy]
        · have hxy : x = y := by omega
          subst hxy
          by_cases hx : x = 0
          · simp [wchars, hx]
          · have := ih t
            simp only [wchars] at this
            simp [h1, wchars, hx, this]

theorem lookupLoop_no_match (ds : List DictElem) (carModel : List Nat)
    (h : ∀ d ∈ ds, wchars carModel ≠ wchars d.carModel) :
    lookupLoop ds carModel = F32.ofInt 0 := by
  induction ds with
  | nil => rfl
  | cons d rest ih =>
    have hd : ¬ wcscmp d.carModel carModel = 0 := by
      rw [wcscmp_eq_zero_iff]
      exact fun e => h d (List.mem_cons_self _ _) e.symm
    simp only [lookupLoop, hd, if_false]
    exact ih fun e he => h e (List.mem_cons_of_mem _ he)

theorem F32.toBool_of_val_zero {x : F32} (h : x.val = some 0) : x.toBool = false := by
  cases x with
  | fin neg m e =>
    simp only [F32.val, Option.some.injEq] at h
    have h2 : (2 : ℚ) ^ e ≠ 0 := zpow_ne_zero _ (by norm_num)
    have hm : (m : ℚ) = 0 := by
      rcases mul_eq_zero.mp h with h1 | h1
      · rcases mul_eq_zero.mp h1 with h0 | h0
        · split at h0 <;> norm_num at h0
        · exact h0
      · exact absurd h1 h2
    have : m = 0 := by exact_mod_cast hm
    simp [F32.toBool, this]
  | inf neg => simp [F32.val] at h
  | nan => simp [F32.val] at h

/-! ## Facts about one tick of `doSend` -/

theorem list_six {α : Type} (l : List α) (h : l.length = 6) :
    ∃ a b c d e f, l = [a, b, c, d, e, f] := by
  match l, h with
  | [a, b, c, d, e, f], _ => exact ⟨a, b, c, d, e, f, rfl⟩

theorem sendSkips_iff (prevStatus status : Int) :
    sendSkips prevStatus status = true ↔ status ≠ ACC_LIVE ∧ status = prevStatus := by
  simp only [sendSkips, Bool.and_eq_true, decide_eq_true_eq]
  exact ⟨fun h => ⟨fun e => h.1 e.symm, h.2.symm⟩, fun h => ⟨fun e => h.1 e.symm, h.2.symm⟩⟩

theorem sendRecalibrates_iff (prevStatus status : Int) :
    sendRecalibrates prevStatus status = true ↔ status ≠ prevStatus ∧ status = ACC_LIVE := by
  simp only [sendRecalibrates, Bool.and_eq_true, decide_eq_true_eq]
  exact ⟨fun h => ⟨h.1, h.2.symm⟩, fun h => ⟨h.1, h.2.symm⟩⟩

theorem sendTick_skip (rpmBits : Nat) (s : SendState) (t : Snapshot)
    (h : t.gra.status ≠ ACC_LIVE ∧ t.gra.status = s.prevStatus) : sendTick rpmBits s t = s := by
  have hs := (sendSkips_iff s.prevStatus t.gra.status).mpr h
  simp only [sendTick, hs, if_true]

theorem sendTick_send (rpmBits : Nat) (s : SendState) (t : Snapshot)
    (h : ¬ (t.gra.status ≠ ACC_LIVE ∧ t.gra.status = s.prevStatus)) :
    sendTick rpmBits s t =
      ⟨if t.gra.status ≠ s.prevStatus ∧ t.gra.status = ACC_LIVE
          then lookupBBOffset t.sta.carModel else s.bbOffset,
        t.gra.status,
        s.written ++ [buildPacket rpmBits t
          (if t.gra.status ≠ s.prevStatus ∧ t.gra.status = ACC_LIVE
            then lookupBBOffset t.sta.carModel else s.bbOffset)]⟩ := by
  have hs : ¬ sendSkips s.prevStatus t.gra.status = true :=
    fun e => h ((sendSkips_iff _ _).mp e)
  by_cases hc : t.gra.status ≠ s.prevStatus ∧ t.gra.status = ACC_LIVE
  · have hr := (sendRecalibrates_iff s.prevStatus t.gra.status).mpr hc
    simp [sendTick, hs, hr, if_pos hc]
  · have hr : ¬ sendRecalibrates s.prevStatus t.gra.status = true :=
      fun e => hc ((sendRecalibrates_iff _ _).mp e)
    simp [sendTick, hs, hr, if_neg hc]

theorem prevStatus_after_tick (rpmBits : Nat) (s : SendState) (t : Snapshot) :
    (sendTick rpmBits s t).prevStatus = t.gra.status := by
  by_cases hc : t.gra.status ≠ ACC_LIVE ∧ t.gra.status = s.prevStatus
  · rw [sendTick_skip rpmBits s t hc]; exact hc.2.symm
  · rw [sendTick_send rpmBits s t hc]

theorem bbOffset_after_tick (rpmBits : Nat) (s : SendState) (t : Snapshot) :
    (sendTick rpmBits s t).bbOffset =
      if t.gra.status ≠ s.prevStatus ∧ t.gra.status = ACC_LIVE
      then lookupBBOffset t.sta.carModel else s.bbOffset := by
  by_cases hc : t.gra.status ≠ ACC_LIVE ∧ t.gra.status = s.prevStatus
  · rw [sendTick_skip rpmBits s t hc, if_neg]
    exact fun h => h.1 hc.2
  · rw [sendTick_send rpmBits s t hc]

theorem sendLoop_live_keeps (rpmBits : Nat) (rest : List Snapshot) (s : SendState)
    (hs : s.prevStatus = ACC_LIVE) (hr : ∀ t ∈ rest, t.gra.status = ACC_LIVE) :
    (sendLoop rpmBits s rest).bbOffset = s.bbOffset ∧
    (sendLoop rpmBits s rest).prevStatus = ACC_LIVE := by
  induction rest generalizing s with
  | nil => exact ⟨rfl, hs⟩
  | cons t rest ih =>
    have ht : t.gra.status = ACC_LIVE := hr t (List.mem_cons_self _ _)
    have h1 : (sendTick rpmBits s t).prevStatus = ACC_LIVE := by
      rw [prevStatus_after_tick, ht]
    have h2 : (sendTick rpmBits s t).bbOffset = s.bbOffset := by
      rw [bbOffset_after_tick, if_neg]
      rintro ⟨hne, -⟩
      exact hne (ht.trans hs.symm)
    have := ih (sendTick rpmBits s t) h1 fun u hu => hr u (List.mem_cons_of_mem _ hu)
    simp only [sendLoop, List.foldl_cons] at this ⊢
    exact ⟨this.1.trans h2, this.2⟩

/-! ## Facts about the replay loop -/

theorem replayLoop_failed (sz : Sizes) (h : Handle) (v : Views) (acc : List ReplayTick)
    (hr : replayReads sz h v = none) : replayLoop sz h v acc = ⟨true, acc, h, v⟩ := by
  rw [replayLoop]
  split
  · rfl
  · rename_i h3 t e
    rw [hr] at e
    cases e

theorem replayLoop_again (sz : Sizes) (h : Handle) (v : Views) (acc : List ReplayTick)
    (h3 : Handle) (t : ReplayTick) (hr : replayReads sz h v = some (h3, t))
    (ha : t.again = true) :
    replayLoop sz h v acc = replayLoop sz h3 t.views (acc ++ [t]) := by
  rw [replayLoop]
  split
  · rename_i e
    rw [hr] at e
    cases e
  · rename_i h4 u e
    rw [hr] at e
    simp only [Option.some.injEq, Prod.mk.injEq] at e
    obtain ⟨rfl, rfl⟩ := e
    simp only [ha, dite_true]

theorem replayLoop_stop (sz : Sizes) (h : Handle) (v : Views) (acc : List ReplayTick)
    (h3 : Handle) (t : ReplayTick) (hr : replayReads sz h v = some (h3, t))
    (ha : t.again = false) :
    replayLoop sz h v acc = ⟨false, acc ++ [t], h3, t.views⟩ := by
  rw [replayLoop]
  split
  · rename_i e
    rw [hr] at e
    cases e
  · rename_i h4 u e
    rw [hr] at e
    simp only [Option.some.injEq, Prod.mk.injEq] at e
    obtain ⟨rfl, rfl⟩ := e
    simp [ha]

theorem replayLoop_ticks (sz : Sizes) (h : Handle) (v : Views) (acc : List ReplayTick)
    (hacc : ∀ t ∈ acc, t.again = true) :
    (∀ t ∈ (replayLoop sz h v acc).ticks.dropLast, t.again = true) ∧
    ((replayLoop sz h v acc).failed = false →
      ∃ l, (replayLoop sz h v acc).ticks.getLast? = some l ∧ l.again = false ∧
        (replayLoop sz h v acc).views = l.views) ∧
    ((replayLoop sz h v acc).failed = true →
      ∀ t ∈ (replayLoop sz h v acc).ticks, t.again = true) := by
  induction h, v, acc using replayLoop.induct sz with
  | case1 h v acc hr =>
    rw [replayLoop_failed sz h v acc hr]
    exact ⟨fun t ht => hacc t (List.mem_of_mem_dropLast ht), fun hf => Bool.noConfusion hf,
      fun _ => hacc⟩
  | case2 h v acc h3 t hr ha ih =>
    rw [replayLoop_again sz h v acc h3 t hr ha]
    apply ih
    intro u hu
    rcases List.mem_append.mp hu with hu | hu
    · exact hacc u hu
    · rw [List.mem_singleton.mp hu]; exact ha
  | case3 h v acc h3 t hr ha =>
    have ha2 : t.again = false := by simpa using ha
    rw [replayLoop_stop sz h v acc h3 t hr ha2]
    refine ⟨?_, fun _ => ⟨t, by simp, ha2, rfl⟩, fun hf => Bool.noConfusion hf⟩
    intro u hu
    simp only [List.dropLast_concat] at hu
    exact hacc u hu

theorem again_false_iff (t : ReplayTick) :
    t.again = false ↔ t.phyBytesRead = 0 ∧ t.graBytesRead = 0 ∧ t.staBytesRead = 0 := by
  simp [ReplayTick.again, and_assoc]

theorem again_true_iff (t : ReplayTick) :
    t.again = true ↔ t.phyBytesRead ≠ 0 ∨ t.graBytesRead ≠ 0 ∨ t.staBytesRead ≠ 0 := by
  simp [ReplayTick.again, or_assoc]

theorem saveLoop_eq (sz : Sizes) (snaps : List Views) (hs : ∀ s ∈ snaps, s.sized sz)
    (file : List Nat) : snaps.foldl (saveTick sz) file = file ++ logOf snaps := by
  induction snaps generalizing file with
  | nil => simp [logOf]
  | cons s rest ih =>
    obtain ⟨h1, h2, h3⟩ := hs s (List.mem_cons_self _ _)
    rw [List.foldl_cons, ih (fun u hu => hs u (List.mem_cons_of_mem _ hu))]
    simp [saveTick, WriteFile, logOf, ← h1, ← h2, ← h3]

theorem ReadFile_full (a rest buf : List Nat) :
    ReadFile ⟨a ++ rest, none⟩ buf a.length =
      some (⟨rest, none⟩, a ++ buf.drop a.length, a.length) := by
  simp [ReadFile]

theorem replayReads_record (sz : Sizes) (s v : Views) (rest : List Nat)
    (hs : s.sized sz) (hv : v.sized sz) :
    replayReads sz ⟨s.phy ++ s.gra ++ s.sta ++ rest, none⟩ v =
      some (⟨rest, none⟩, ⟨sz.phy, sz.gra, sz.sta, s⟩) := by
  obtain ⟨h1, h2, h3⟩ := hs
  obtain ⟨g1, g2, g3⟩ := hv
  have e1 := ReadFile_full s.phy (s.gra ++ s.sta ++ rest) v.phy
  have e2 := ReadFile_full s.gra (s.sta ++ rest) v.gra
  have e3 := ReadFile_full s.sta rest v.sta
  rw [h1] at e1
  rw [h2] at e2
  rw [h3] at e3
  have d1 : v.phy.drop sz.phy = [] := by rw [← g1]; exact List.drop_length _
  have d2 : v.gra.drop sz.gra = [] := by rw [← g2]; exact List.drop_length _
  have d3 : v.sta.drop sz.sta = [] := by rw [← g3]; exact List.drop_length _
  simp only [List.append_assoc] at e1 e2 e3 ⊢
  simp only [replayReads, e1, e2, e3, d1, d2, d3, List.append_nil]

theorem replayReads_eof (sz : Sizes) (v : Views) :
    replayReads sz ⟨[], none⟩ v = some (⟨[], none⟩, ⟨0, 0, 0, v⟩) := by
  simp [replayReads, ReadFile]

theorem replayLoop_log (sz : Sizes) (hpos : 0 < sz.phy + sz.gra + sz.sta)
    (snaps : List Views) (hs : ∀ s ∈ snaps, s.sized sz) (v : Views) (hv : v.sized sz)
    (acc : List ReplayTick) :
    replayLoop sz ⟨logOf snaps, none⟩ v acc =
      ⟨false,
        acc ++ snaps.map (fun s => ⟨sz.phy, sz.gra, sz.sta, s⟩) ++
          [⟨0, 0, 0, snaps.getLast?.getD v⟩],
        ⟨[], none⟩, snaps.getLast?.getD v⟩ := by
  induction snaps generalizing v acc with
  | nil =>
    rw [show logOf [] = [] from rfl,
      replayLoop_stop sz _ v acc _ _ (replayReads_eof sz v) rfl]
    simp
  | cons s rest ih =>
    have hss := hs s (List.mem_cons_self _ _)
    have e : logOf (s :: rest) = s.phy ++ s.gra ++ s.sta ++ logOf rest := by
      simp [logOf]
    have ha : (⟨sz.phy, sz.gra, sz.sta, s⟩ : ReplayTick).again = true := by
      simp only [ReplayTick.again, bne_iff_ne, ne_eq, Bool.or_eq_true]
      omega
    rw [e, replayLoop_again sz _ v acc _ _ (replayReads_record sz s v _ hss hv) ha,
      ih (fun u hu => hs u (List.mem_cons_of_mem _ hu)) s hss]
    simp [List.getLast?_cons]

theorem replayReads_lone_physics (sz : Sizes) (v : Views) (data : List Nat)
    (hd : data.length = sz.phy) (hv : v.sized sz) :
    replayReads sz ⟨data, none⟩ v = some (⟨[], none⟩, ⟨sz.phy, 0, 0, ⟨data, v.gra, v.sta⟩⟩) := by
  obtain ⟨g1, -, -⟩ := hv
  have d1 : v.phy.drop sz.phy = [] := by rw [← g1]; exact List.drop_length _
  have t1 : data.take sz.phy = data := by rw [← hd]; exact List.take_length _
  have t2 : data.drop sz.phy = [] := by rw [← hd]; exact List.drop_length _
  simp [replayReads, ReadFile, t1, t2, hd, d1]

theorem replayLoop_lone_physics (sz : Sizes) (v : Views) (data : List Nat)
    (hd : data.length = sz.phy) (hpos : 0 < sz.phy) (hv : v.sized sz) :
    (replayLoop sz ⟨data, none⟩ v []).ticks =
      [⟨sz.phy, 0, 0, ⟨data, v.gra, v.sta⟩⟩, ⟨0, 0, 0, ⟨data, v.gra, v.sta⟩⟩] := by
  have ha : (⟨sz.phy, 0, 0, ⟨data, v.gra, v.sta⟩⟩ : ReplayTick).again = true := by
    simp only [ReplayTick.again, bne_iff_ne, ne_eq, Bool.or_eq_true]
    omega
  rw [replayLoop_again sz _ v [] _ _ (replayReads_lone_physics sz v data hd hv) ha,
    replayLoop_stop sz _ _ _ _ _ (replayReads_eof sz _) rfl]
  rfl

/-! ## Facts about `mapAcpmf` -/

theorem waitPhysics_none (w : Win32) (fuel i : Nat)
    (h : ∀ j, j < fuel → w.openPhysics (i + j) = 0) : waitPhysics w fuel i = none := by
  induction fuel generalizing i with
  | zero => rfl
  | succ n ih =>
    have h0 : w.openPhysics i = 0 := by simpa using h 0 (Nat.succ_pos n)
    simp only [waitPhysics, h0, ne_eq, not_true_eq_false, if_false]
    apply ih
    intro j hj
    have := h (j + 1) (by omega)
    rwa [show i + 1 + j = i + (j + 1) by omega]

theorem waitPhysics_some (w : Win32) (fuel i k : Nat)
    (h : ∀ j, j < k → w.openPhysics (i + j) = 0) (hk : w.openPhysics (i + k) ≠ 0)
    (hf : k < fuel) : waitPhysics w fuel i = some (w.openPhysics (i + k)) := by
  induction k generalizing i fuel with
  | zero =>
    obtain ⟨n, rfl⟩ : ∃ n, fuel = n + 1 := ⟨fuel - 1, by omega⟩
    have hk0 : w.openPhysics i ≠ 0 := by simpa using hk
    simp [waitPhysics, hk0]
  | succ k ih =>
    obtain ⟨n, rfl⟩ : ∃ n, fuel = n + 1 := ⟨fuel - 1, by omega⟩
    have h0 : w.openPhysics i = 0 := by simpa using h 0 (Nat.succ_pos k)
    simp only [waitPhysics, h0, ne_eq, not_true_eq_false, if_false]
    have := ih n (i + 1) (fun j hj => by
      have := h (j + 1) (by omega)
      rwa [show i + 1 + j = i + (j + 1) by omega]) (by
      rwa [show i + 1 + k = i + (k + 1) by omega]) (by omega)
    rw [this, show i + 1 + k = i + (k + 1) by omega]

theorem mapViews_contract (w : Win32) (a b c phy gra sta : Nat)
    (hp : phy ≠ 0) (hg : gra ≠ 0) (hs : sta ≠ 0) :
    MapContract w a b c (mapViews w a b c phy gra sta) := by
  unfold MapContract
  by_cases h : a = 0 ∨ b = 0 ∨ c = 0
  · rw [if_pos h]
    rcases h with h | h | h
    · by_cases hb : b = 0 <;> by_cases hc : c = 0 <;> simp [mapViews, h, hb, hc]
    · by_cases hc : c = 0 <;> simp [mapViews, h, hc]
    · simp [mapViews, h]
  · rw [if_neg h]
    simp only [not_or] at h
    obtain ⟨ha, hb, hc⟩ := h
    refine ⟨0, ?_, fun _ => rfl⟩
    simp [mapViews, ha, hb, hc, hp, hg, hs]

/-! ## The claims -/

/-- C1, as stated, fails: from the initial state of the send loop (prevStatus = OFF, offset 0)
the tick statuses OFF, OFF, LIVE, LIVE, PAUSE, PAUSE do not produce 4 packets. -/
theorem doSend_edge_sequence_not_four :
    ¬ (doSend 16 ([ACC_OFF, ACC_OFF, ACC_LIVE, ACC_LIVE, ACC_PAUSE, ACC_PAUSE].map
        idleTick)).written.length = 4 := by
  decide

/-- C1, amended: from the initial state of the send loop (prevStatus = OFF, offset 0), six ticks
whose statuses are OFF, OFF, LIVE, LIVE, PAUSE, PAUSE produce exactly 3 packets, those of the
third, fourth and fifth tick (statuses LIVE, LIVE, PAUSE), all built with the offset looked up
for the vehicle of the third tick.  Both OFF ticks repeat the initial prevStatus and are
skipped, and so is the second PAUSE tick. -/
theorem doSend_edge_sequence (rpmBits : Nat) (ticks : List Snapshot)
    (h : ticks.map (fun t => t.gra.status) =
      [ACC_OFF, ACC_OFF, ACC_LIVE, ACC_LIVE, ACC_PAUSE, ACC_PAUSE]) :
    (doSend rpmBits ticks).written.length = 3 ∧
    (doSend rpmBits ticks).written.map (fun p => p.status) =
      [ACC_LIVE, ACC_LIVE, ACC_PAUSE] ∧
    (doSend rpmBits ticks).written = ((ticks.take 5).drop 2).map (fun t =>
      buildPacket rpmBits t (lookupBBOffset ((ticks.getD 2 (idleTick 0)).sta.carModel))) := by
  have hlen : ticks.length = 6 := by
    have := congrArg List.length h
    simpa using this
  obtain ⟨t1, t2, t3, t4, t5, t6, rfl⟩ := list_six ticks hlen
  simp only [List.map_cons, List.map_nil, List.cons.injEq, and_true] at h
  obtain ⟨h1, h2, h3, h4, h5, h6⟩ := h
  have e1 : sendTick rpmBits sendInit t1 = sendInit := by
    simp [sendTick, sendSkips, sendInit, h1, ACC_OFF, ACC_LIVE]
  have e2 : sendTick rpmBits sendInit t2 = sendInit := by
    simp [sendTick, sendSkips, sendInit, h2, ACC_OFF, ACC_LIVE]
  have e3 : sendTick rpmBits sendInit t3 = ⟨lookupBBOffset t3.sta.carModel, ACC_LIVE,
      [buildPacket rpmBits t3 (lookupBBOffset t3.sta.carModel)]⟩ := by
    simp [sendTick, sendSkips, sendRecalibrates, sendInit, h3, ACC_OFF, ACC_LIVE]
  have e4 : ∀ s : SendState, s.prevStatus = ACC_LIVE → sendTick rpmBits s t4 =
      ⟨s.bbOffset, ACC_LIVE, s.written ++ [buildPacket rpmBits t4 s.bbOffset]⟩ := by
    intro s hs
    simp [sendTick, sendSkips, sendRecalibrates, h4, hs]
  have e5 : ∀ s : SendState, s.prevStatus = ACC_LIVE → sendTick rpmBits s t5 =
      ⟨s.bbOffset, ACC_PAUSE, s.written ++ [buildPacket rpmBits t5 s.bbOffset]⟩ := by
    intro s hs
    simp [sendTick, sendSkips, sendRecalibrates, h5, hs, ACC_PAUSE, ACC_LIVE]
  have e6 : ∀ s : SendState, s.prevStatus = ACC_PAUSE → sendTick rpmBits s t6 = s := by
    intro s hs
    simp [sendTick, sendSkips, h6, hs, ACC_PAUSE, ACC_LIVE]
  have run : doSend rpmBits [t1, t2, t3, t4, t5, t6] =
      ⟨lookupBBOffset t3.sta.carModel, ACC_PAUSE,
        [buildPacket rpmBits t3 (lookupBBOffset t3.sta.carModel),
         buildPacket rpmBits t4 (lookupBBOffset t3.sta.carModel),
         buildPacket rpmBits t5 (lookupBBOffset t3.sta.carModel)]⟩ := by
    simp only [doSend, sendLoop, List.foldl_cons, List.foldl_nil, e1, e2, e3]
    rw [e4 _ rfl, e5 _ rfl, e6 _ rfl]
    rfl
  rw [run]
  refine ⟨rfl, ?_, ?_⟩
  · simp [buildPacket, h3, h4, h5]
  · simp

/-- Witness of C1, amended, at six ticks that carry nothing but their status. -/
theorem doSend_edge_sequence_witness :
    (doSend 16 ([ACC_OFF, ACC_OFF, ACC_LIVE, ACC_LIVE, ACC_PAUSE, ACC_PAUSE].map
        idleTick)).written.map (fun p => p.status) = [ACC_LIVE, ACC_LIVE, ACC_PAUSE] :=
  (doSend_edge_sequence 16
    ([ACC_OFF, ACC_OFF, ACC_LIVE, ACC_LIVE, ACC_PAUSE, ACC_PAUSE].map idleTick)
    (by decide)).2.1

/-- C2: for every previous status and every current status, a tick of the loop of doSend
writes a packet if and only if it is not the case that status != LIVE and status ==
prevStatus.  The packet is the one built from the snapshot of the tick and it is appended to
what was written before; a tick whose status is LIVE always writes it; a skipped tick leaves
what was written unchanged. -/
theorem sendTick_writes_iff (rpmBits : Nat) (s : SendState) (t : Snapshot) :
    (sendTick rpmBits s t).written =
      (if t.gra.status ≠ ACC_LIVE ∧ t.gra.status = s.prevStatus then s.written
       else s.written ++ [buildPacket rpmBits t (sendTick rpmBits s t).bbOffset]) ∧
    ((sendTick rpmBits s t).written.length = s.written.length + 1 ↔
      ¬ (t.gra.status ≠ ACC_LIVE ∧ t.gra.status = s.prevStatus)) ∧
    (t.gra.status = ACC_LIVE →
      (sendTick rpmBits s t).written =
        s.written ++ [buildPacket rpmBits t (sendTick rpmBits s t).bbOffset]) ∧
    ((t.gra.status ≠ ACC_LIVE ∧ t.gra.status = s.prevStatus) →
      (sendTick rpmBits s t).written = s.written) := by
  by_cases hc : t.gra.status ≠ ACC_LIVE ∧ t.gra.status = s.prevStatus
  · rw [sendTick_skip rpmBits s t hc, if_pos hc]
    refine ⟨rfl, ?_, fun h => absurd h hc.1, fun _ => rfl⟩
    constructor
    · intro h; omega
    · intro h; exact absurd hc h
  · have e : (sendTick rpmBits s t).written =
        s.written ++ [buildPacket rpmBits t (sendTick rpmBits s t).bbOffset] := by
      rw [sendTick_send rpmBits s t hc]
    refine ⟨by rw [if_neg hc]; exact e, ?_, fun _ => e, fun h => absurd h hc⟩
    rw [e]
    simp [hc]

/-- Witness of C2: a LIVE tick after a LIVE tick writes one more packet, and a PAUSE tick after
a PAUSE tick writes nothing. -/
theorem sendTick_writes_iff_witness :
    (sendTick 16 ⟨F32.ofInt 0, ACC_LIVE, []⟩ (idleTick ACC_LIVE)).written =
      [buildPacket 16 (idleTick ACC_LIVE)
        (sendTick 16 ⟨F32.ofInt 0, ACC_LIVE, []⟩ (idleTick ACC_LIVE)).bbOffset] ∧
    (sendTick 16 ⟨F32.ofInt 0, ACC_PAUSE, []⟩ (idleTick ACC_PAUSE)).written = [] :=
  ⟨(sendTick_writes_iff 16 ⟨F32.ofInt 0, ACC_LIVE, []⟩ (idleTick ACC_LIVE)).2.2.1 (by decide),
   (sendTick_writes_iff 16 ⟨F32.ofInt 0, ACC_PAUSE, []⟩ (idleTick ACC_PAUSE)).2.2.2
     (by decide)⟩

/-- C3: after a tick of the loop of doSend the calibration offset is
lookupBBOffset(carModel of this tick) when status != prevStatus and status == LIVE, and the
offset before the tick otherwise.  So after a tick that enters LIVE with vehicle A, any number
of further ticks with status LIVE, whatever vehicle they carry, leave the offset at the value
looked up for A. -/
theorem sendTick_bbOffset (rpmBits : Nat) (s : SendState) (t : Snapshot) :
    (sendTick rpmBits s t).bbOffset =
      (if t.gra.status ≠ s.prevStatus ∧ t.gra.status = ACC_LIVE
        then lookupBBOffset t.sta.carModel else s.bbOffset) ∧
    ∀ (a : Snapshot) (later : List Snapshot),
      s.prevStatus ≠ ACC_LIVE → a.gra.status = ACC_LIVE →
      (∀ u ∈ later, u.gra.status = ACC_LIVE) →
      (sendLoop rpmBits s (a :: later)).bbOffset = lookupBBOffset a.sta.carModel := by
  refine ⟨bbOffset_after_tick rpmBits s t, ?_⟩
  intro a later hs ha hl
  have h1 : (sendTick rpmBits s a).prevStatus = ACC_LIVE := by
    rw [prevStatus_after_tick, ha]
  have h2 : (sendTick rpmBits s a).bbOffset = lookupBBOffset a.sta.carModel := by
    rw [bbOffset_after_tick, if_pos]
    exact ⟨fun e => hs (e ▸ ha), ha⟩
  have := sendLoop_live_keeps rpmBits later (sendTick rpmBits s a) h1 hl
  simp only [sendLoop, List.foldl_cons] at this ⊢
  exact this.1.trans h2

/-- Witness of C3: entering LIVE in a BMW M6 and then reading an Audi R8 on the next LIVE tick
leaves the offset at -150, the BMW value, although the Audi value is -140. -/
theorem sendTick_bbOffset_witness :
    (sendLoop 16 sendInit
      [carTick ACC_LIVE "bmw_m6_gt3" (F32.ofInt 0),
       carTick ACC_LIVE "audi_r8_lms" (F32.ofInt 0)]).bbOffset = F32.ofInt (-150) ∧
    lookupBBOffset (wstr "audi_r8_lms") = F32.ofInt (-140) :=
  ⟨((sendTick_bbOffset 16 sendInit (idleTick ACC_OFF)).2
      (carTick ACC_LIVE "bmw_m6_gt3" (F32.ofInt 0))
      [carTick ACC_LIVE "audi_r8_lms" (F32.ofInt 0)]
      (by decide) (by decide) (by decide)).trans (by decide), by decide⟩

/-- C4: the table of lookupBBOffset has 24 entries and for each of them lookupBBOffset returns
the offset of that entry; for every string whose characters differ from those of all 24 keys
(compared unit by unit, so case matters), among them "BMW_M6_GT3" and the empty string,
lookupBBOffset returns 0.0. -/
theorem lookupBBOffset_table :
    dict.length = 24 ∧
    (∀ d ∈ dict, lookupBBOffset d.carModel = d.bbOffset) ∧
    (∀ carModel : List Nat, (∀ d ∈ dict, wchars carModel ≠ wchars d.carModel) →
      lookupBBOffset carModel = F32.fin false 0 0) ∧
    lookupBBOffset (wstr "BMW_M6_GT3") = F32.fin false 0 0 ∧
    lookupBBOffset (wstr "") = F32.fin false 0 0 := by
  refine ⟨by decide, by decide, ?_, by decide, by decide⟩
  intro carModel h
  exact lookupLoop_no_match dict carModel h

/-- Witness of C4: the key "bmw_m6_gt3" gives -150, and the same key followed by a blank, which
is no key of the table, gives 0.0. -/
theorem lookupBBOffset_table_witness :
    lookupBBOffset (wstr "bmw_m6_gt3") = F32.ofInt (-150) ∧
    lookupBBOffset (wstr "bmw_m6_gt3 ") = F32.fin false 0 0 :=
  ⟨lookupBBOffset_table.2.1 ⟨F32.ofInt (-150), wstr "bmw_m6_gt3"⟩ (by decide),
   lookupBBOffset_table.2.2.1 (wstr "bmw_m6_gt3 ") (by decide)⟩

/-- C5: for every calibration offset and every snapshot whose physics.brakeBias is exactly 0,
the packet doSend builds has bb = 0; hence every packet a tick on such a snapshot adds to the
written ones has bb = 0. -/
theorem buildPacket_bb_zero (rpmBits : Nat) (t : Snapshot) (bbOffset : F32)
    (h : t.phy.brakeBias.val = some 0) :
    (buildPacket rpmBits t bbOffset).bb = 0 ∧
    ∀ s : SendState, ∀ p ∈ (sendTick rpmBits s t).written, p ∈ s.written ∨ p.bb = 0 := by
  have hb : sendBB t.phy.brakeBias = fun _ => 0 := by
    funext o
    simp [sendBB, F32.toBool_of_val_zero h]
  refine ⟨by simp [buildPacket, hb], ?_⟩
  intro s p hp
  by_cases hc : t.gra.status ≠ ACC_LIVE ∧ t.gra.status = s.prevStatus
  · rw [sendTick_skip rpmBits s t hc] at hp
    exact Or.inl hp
  · rw [sendTick_send rpmBits s t hc] at hp
    simp only [List.mem_append, List.mem_singleton] at hp
    rcases hp with hp | rfl
    · exact Or.inl hp
    · right
      simp [buildPacket, hb]

/-- Witness of C5: brake bias 0 with the offset -150 of the BMW M6 encodes to bb = 0. -/
theorem buildPacket_bb_zero_witness :
    (buildPacket 16 (carTick ACC_LIVE "bmw_m6_gt3" (F32.fin false 0 0))
      (F32.ofInt (-150))).bb = 0 :=
  (buildPacket_bb_zero 16 (carTick ACC_LIVE "bmw_m6_gt3" (F32.fin false 0 0)) (F32.ofInt (-150))
    (by simp [carTick, F32.val])).1

/-- C6, the code at the failing input: for a recorded snapshot of a BMW M6 with brake bias 0,
doCsv writes ibb = 65386, the 16-bit truncation of 0 * 1000 + (-150), while the encoder of
doSend, given the offset lookupBBOffset(carModel) = -150, takes its zero branch and computes
bb = 0.  Where the brake bias is not zero the two agree. -/
theorem csvRecord_ibb_zero_brakeBias :
    (csvRecord (carTick ACC_LIVE "bmw_m6_gt3" (F32.fin false 0 0))).ibb = 65386 ∧
    (buildPacket 16 (carTick ACC_LIVE "bmw_m6_gt3" (F32.fin false 0 0))
      (lookupBBOffset (wstr "bmw_m6_gt3"))).bb = 0 ∧
    ∀ (rpmBits : Nat) (t : Snapshot), t.phy.brakeBias.toBool = true →
      (csvRecord t).ibb = (buildPacket rpmBits t (lookupBBOffset t.sta.carModel)).bb := by
  refine ⟨by decide, by decide, ?_⟩
  intro rpmBits t h
  simp [csvRecord, buildPacket, sendBB, h]

/-- C7, as stated, fails: on an input of 3 bytes with records of 2 bytes each, the first tick
reads 2, 1 and 0 bytes (a short count and a zero count) and the loop still runs a second tick,
which reads 0, 0 and 0 bytes and ends it. -/
theorem replayLoop_continues_after_short :
    (replayLoop twoBytes ⟨[1, 2, 3], none⟩ freshViews []).ticks =
      [⟨2, 1, 0, ⟨[1, 2], [3, 0], [0, 0]⟩⟩, ⟨0, 0, 0, ⟨[1, 2], [3, 0], [0, 0]⟩⟩] ∧
    ¬ ∀ t ∈ (replayLoop twoBytes ⟨[1, 2, 3], none⟩ freshViews []).ticks.dropLast,
      t.short twoBytes = false := by
  have e : replayLoop twoBytes ⟨[1, 2, 3], none⟩ freshViews [] =
      ⟨false, [⟨2, 1, 0, ⟨[1, 2], [3, 0], [0, 0]⟩⟩, ⟨0, 0, 0, ⟨[1, 2], [3, 0], [0, 0]⟩⟩],
        ⟨[], none⟩, ⟨[1, 2], [3, 0], [0, 0]⟩⟩ := by
    rw [replayLoop_again twoBytes _ _ _ ⟨[], none⟩ ⟨2, 1, 0, ⟨[1, 2], [3, 0], [0, 0]⟩⟩
      (by decide) (by decide)]
    rw [replayLoop_stop twoBytes _ _ _ ⟨[], none⟩ ⟨0, 0, 0, ⟨[1, 2], [3, 0], [0, 0]⟩⟩
      (by decide) (by decide)]
    rfl
  rw [e]
  exact ⟨rfl, by decide⟩

/-- C7, amended: for every input, the per-source loop of doReplay always ends; every tick
before the last one read at least one byte in one of its three reads (so a tick with a short
or zero count in some read is followed by another tick as long as one of its counts is not
zero); when no read failed, the last tick is the first one on which all three reads returned
a zero byte count, no read of that input follows it, and doReplay goes on with the next input
on the views that tick left.  In particular, whatever the record sizes, an input that holds
one Physics record and nothing else is replayed in two ticks: the first reads the Physics
record and 0 bytes for Graphics and for Static, the second reads nothing. -/
theorem replayLoop_stops_when_all_zero (sz : Sizes) (h : Handle) (v : Views) :
    (∀ t ∈ (replayLoop sz h v []).ticks.dropLast,
      t.phyBytesRead ≠ 0 ∨ t.graBytesRead ≠ 0 ∨ t.staBytesRead ≠ 0) ∧
    ((replayLoop sz h v []).failed = false →
      ∃ l, (replayLoop sz h v []).ticks.getLast? = some l ∧
        (l.phyBytesRead = 0 ∧ l.graBytesRead = 0 ∧ l.staBytesRead = 0) ∧
        (replayLoop sz h v []).views = l.views) ∧
    (∀ rest : List Handle, (replayLoop sz h v []).failed = false →
      doReplay sz (h :: rest) v =
        (replayLoop sz h v [] :: (doReplay sz rest (replayLoop sz h v []).views).1,
          (doReplay sz rest (replayLoop sz h v []).views).2)) ∧
    (∀ data : List Nat, data.length = sz.phy → 0 < sz.phy → v.sized sz →
      (replayLoop sz ⟨data, none⟩ v []).ticks =
        [⟨sz.phy, 0, 0, ⟨data, v.gra, v.sta⟩⟩, ⟨0, 0, 0, ⟨data, v.gra, v.sta⟩⟩]) := by
  have key := replayLoop_ticks sz h v [] (fun t ht => absurd ht (List.not_mem_nil t))
  refine ⟨fun t ht => (again_true_iff t).mp (key.1 t ht), ?_, ?_,
    fun data hd hpos hv => replayLoop_lone_physics sz v data hd hpos hv⟩
  · intro hf
    obtain ⟨l, h1, h2, h3⟩ := key.2.1 hf
    exact ⟨l, h1, (again_false_iff l).mp h2, h3⟩
  · intro rest hf
    simp only [doReplay, hf, Bool.false_eq_true, if_false]

/-- Witness of C7, amended: an input of 7 bytes with records of 2 bytes each is replayed without
a failed read, and is followed by the next input. -/
theorem replayLoop_stops_when_all_zero_witness :
    doReplay twoBytes [⟨[1, 2, 3, 4, 5, 6, 7], none⟩, ⟨[], none⟩] freshViews =
      (replayLoop twoBytes ⟨[1, 2, 3, 4, 5, 6, 7], none⟩ freshViews [] ::
        (doReplay twoBytes [⟨[], none⟩]
          (replayLoop twoBytes ⟨[1, 2, 3, 4, 5, 6, 7], none⟩ freshViews []).views).1,
        (doReplay twoBytes [⟨[], none⟩]
          (replayLoop twoBytes ⟨[1, 2, 3, 4, 5, 6, 7], none⟩ freshViews []).views).2) :=
  (replayLoop_stops_when_all_zero twoBytes ⟨[1, 2, 3, 4, 5, 6, 7], none⟩ freshViews).2.2.1
    [⟨[], none⟩] (by
      rw [replayLoop_again twoBytes _ _ _ ⟨[7], none⟩ ⟨2, 2, 2, ⟨[1, 2], [3, 4], [5, 6]⟩⟩
        (by decide) (by decide)]
      rw [replayLoop_again twoBytes _ _ _ ⟨[], none⟩ ⟨1, 0, 0, ⟨[7, 2], [3, 4], [5, 6]⟩⟩
        (by decide) (by decide)]
      rw [replayLoop_stop twoBytes _ _ _ ⟨[], none⟩ ⟨0, 0, 0, ⟨[7, 2], [3, 4], [5, 6]⟩⟩
        (by decide) (by decide)])

/-- C8: for every sequence of N snapshots of the record sizes (not all three sizes zero), the
log doSave writes for them, fed to doReplay as a single input (a file, whose reads do not
fail) into views of the record sizes, is replayed in N + 1 ticks: after tick i the views hold exactly the
bytes of snapshot i, for i = 1..N in order, each read being complete; the last tick reads
nothing, the input is exhausted, the views are left holding the N-th snapshot (the initial
views when N = 0), and doReplay returns 0. -/
theorem doSave_doReplay_roundtrip (sz : Sizes) (snaps : List Views) (v0 : Views)
    (hpos : 0 < sz.phy + sz.gra + sz.sta) (hs : ∀ s ∈ snaps, s.sized sz) (hv : v0.sized sz) :
    (replayLoop sz ⟨doSave sz snaps, none⟩ v0 []).failed = false ∧
    (replayLoop sz ⟨doSave sz snaps, none⟩ v0 []).ticks =
      snaps.map (fun s => ⟨sz.phy, sz.gra, sz.sta, s⟩) ++ [⟨0, 0, 0, snaps.getLast?.getD v0⟩] ∧
    ((replayLoop sz ⟨doSave sz snaps, none⟩ v0 []).ticks.take snaps.length).map
      (fun t => t.views) = snaps ∧
    (replayLoop sz ⟨doSave sz snaps, none⟩ v0 []).views = snaps.getLast?.getD v0 ∧
    (replayLoop sz ⟨doSave sz snaps, none⟩ v0 []).handle.data = [] ∧
    doReplay sz [⟨doSave sz snaps, none⟩] v0 =
      ([replayLoop sz ⟨doSave sz snaps, none⟩ v0 []], true) := by
  have e : doSave sz snaps = logOf snaps := by
    simpa [doSave] using saveLoop_eq sz snaps hs []
  have r := replayLoop_log sz hpos snaps hs v0 hv []
  rw [e, r]
  refine ⟨rfl, by simp, ?_, rfl, rfl, ?_⟩
  · simp [List.take_append_eq_append_take, Function.comp_def]
  · simp [doReplay, r]

/-- Witness of C8: two snapshots of 2 + 2 + 2 bytes are saved and replayed into fresh views. -/
theorem doSave_doReplay_roundtrip_witness :
    ((replayLoop twoBytes
        ⟨doSave twoBytes [⟨[1, 2], [3, 4], [5, 6]⟩, ⟨[7, 8], [9, 10], [11, 12]⟩], none⟩
        freshViews []).ticks.take 2).map (fun t => t.views) =
      [⟨[1, 2], [3, 4], [5, 6]⟩, ⟨[7, 8], [9, 10], [11, 12]⟩] ∧
    (replayLoop twoBytes
        ⟨doSave twoBytes [⟨[1, 2], [3, 4], [5, 6]⟩, ⟨[7, 8], [9, 10], [11, 12]⟩], none⟩
        freshViews []).views = ⟨[7, 8], [9, 10], [11, 12]⟩ :=
  have w := doSave_doReplay_roundtrip twoBytes
    [⟨[1, 2], [3, 4], [5, 6]⟩, ⟨[7, 8], [9, 10], [11, 12]⟩] freshViews
    (by decide) (by decide) (by decide)
  ⟨w.2.2.1, w.2.2.2.1⟩

/-- C9, as stated, fails at two inputs.  When OpenFileMapping for Physics returns NULL at every
call, mapAcpmf in OPEN_EXISTING mode has not returned after any number of calls, so it does not
return nonzero.  When the three mappings are created and MapViewOfFile returns NULL for
Physics, mapAcpmf returns 0 with the null view stored through phy. -/
theorem mapAcpmf_not_fail_or_views :
    (∀ fuel, mapAcpmf neverPhysics fuel .MAPACPMF_OPEN_EXISTING 1 2 3 = none) ∧
    mapAcpmf nullPhysicsView 1 .MAPACPMF_CREATE 1 2 3 =
      some (.returned ⟨0, some 0, some 1021, some 1022⟩) := by
  refine ⟨fun fuel => ?_, by decide⟩
  simp only [mapAcpmf]
  rw [waitPhysics_none neverPhysics fuel 0 (fun _ _ => rfl)]

/-- C9, amended: called with three valid pointers, mapAcpmf in CREATE mode always returns: with
the value 1 and nothing stored when one of the three CreateFileMapping calls returned NULL,
and otherwise with the three MapViewOfFile results stored through phy, gra and sta, the value
being 0 when all three results are not NULL.  In OPEN_EXISTING mode it has not returned as long
as every OpenFileMapping call for Physics has returned NULL; once a call number k returns a
handle it returns in the same way, with the value 1 and nothing stored when the Graphics or
the Static mapping could not be opened.  (Nothing is said of the value returned when a
MapViewOfFile result is NULL.) -/
theorem mapAcpmf_contract (w : Win32) (fuel phy gra sta : Nat)
    (hp : phy ≠ 0) (hg : gra ≠ 0) (hs : sta ≠ 0) :
    (∃ o, mapAcpmf w fuel .MAPACPMF_CREATE phy gra sta = some o ∧
      MapContract w w.createPhysics w.createGraphics w.createStatic o) ∧
    ((∀ j, j < fuel → w.openPhysics j = 0) →
      mapAcpmf w fuel .MAPACPMF_OPEN_EXISTING phy gra sta = none) ∧
    (∀ k, (∀ j, j < k → w.openPhysics j = 0) → w.openPhysics k ≠ 0 → k < fuel →
      ∃ o, mapAcpmf w fuel .MAPACPMF_OPEN_EXISTING phy gra sta = some o ∧
        MapContract w (w.openPhysics k) w.openGraphics w.openStatic o) := by
  refine ⟨⟨_, rfl, mapViews_contract w _ _ _ phy gra sta hp hg hs⟩, ?_, ?_⟩
  · intro h
    simp only [mapAcpmf]
    rw [waitPhysics_none w fuel 0 (fun j hj => by simpa using h j hj)]
  · intro k h hk hf
    have := waitPhysics_some w fuel 0 k (fun j hj => by simpa using h j hj)
      (by simpa using hk) hf
    simp only [Nat.zero_add] at this
    refine ⟨mapViews w (w.openPhysics k) w.openGraphics w.openStatic phy gra sta, ?_,
      mapViews_contract w _ _ _ phy gra sta hp hg hs⟩
    simp only [mapAcpmf, this]

/-- Witness of C9, amended: the Physics mapping opens at the third call, and with three calls
allowed mapAcpmf returns within the contract. -/
theorem mapAcpmf_contract_witness :
    ∃ o, mapAcpmf latePhysics 3 .MAPACPMF_OPEN_EXISTING 1 2 3 = some o ∧
      MapContract latePhysics 10 11 12 o :=
  (mapAcpmf_contract latePhysics 3 1 2 3 (by decide) (by decide) (by decide)).2.2 2
    (by decide) (by decide) (by decide)

/-- C10: after every tick of the loop of doSend, skipped or not, prevStatus equals the status
read on that tick. -/
theorem sendTick_prevStatus (rpmBits : Nat) (s : SendState) (t : Snapshot) :
    (sendTick rpmBits s t).prevStatus = t.gra.status ∧
    ((t.gra.status ≠ ACC_LIVE ∧ t.gra.status = s.prevStatus) →
      sendTick rpmBits s t = s ∧ s.prevStatus = t.gra.status) :=
  ⟨prevStatus_after_tick rpmBits s t, fun h => ⟨sendTick_skip rpmBits s t h, h.2.symm⟩⟩

/-- Witness of C10: a PAUSE tick after a PAUSE tick is skipped, the state is unchanged, and
prevStatus is the status PAUSE of that tick. -/
theorem sendTick_prevStatus_witness :
    sendTick 16 ⟨F32.ofInt 0, ACC_PAUSE, []⟩ (idleTick ACC_PAUSE) = ⟨F32.ofInt 0, ACC_PAUSE, []⟩ ∧
    ACC_PAUSE = (idleTick ACC_PAUSE).gra.status :=
  (sendTick_prevStatus 16 ⟨F32.ofInt 0, ACC_PAUSE, []⟩ (idleTick ACC_PAUSE)).2 (by decide)

end SimDisplayCLI
